import Mathlib

/-!
Shallow embedding of the places-acquisition connector
(`google_api_connector.py`): dynamic property values, GeoJSON-like
feature datasets, the retry/legacy-fallback state machine of the HTTP
calls, the cache-and-compose acquisition functions, and the
coverage-planner wrapper `fetch_ggl_nearby`.  Collaborators that are
not part of the repository source under `src/` (the document store
`load_dataset`/`store_data_resp`, the formatter
`new_ggl_to_boxmap`/`convert_strings_to_ints`, the plan functions
`process_req_plan`/`rectify_plan`/`mark_plan_result`) enter the model
as explicit function parameters, so every theorem is quantified over
their behaviour.
-/

namespace Ggl

/-- Dynamic JSON-like values held in the loosely-typed Python dicts.
List values are encoded as `vcons`-chains ending in `vnil`, dictionary
values as `ventry`-chains ending in `dnil` (a first-order encoding of
nested lists/dicts, so equality stays derivable). -/
inductive Val where
  | vstr (s : String)
  | vint (n : Int)
  | vnone
  | vnil
  | vcons (hd tl : Val)
  | dnil
  | ventry (k : String) (v tl : Val)
deriving DecidableEq, Repr

/-- A property bag: an insertion-ordered string-keyed dictionary. -/
abbrev PropBag := List (String × Val)

/-- `dict.get(k)`: first binding wins, `none` for a missing key. -/
def pget (bag : PropBag) (k : String) : Option Val :=
  (bag.find? (fun p => p.1 == k)).map (fun p => p.2)

/-- `dict.get(k, d)`. -/
def pgetD (bag : PropBag) (k : String) (d : Val) : Val :=
  (pget bag k).getD d

/-- `del dict[k]` (the connector guards the delete with a membership
test, so deleting an absent key leaving the bag unchanged is faithful). -/
def pdel (bag : PropBag) (k : String) : PropBag :=
  bag.filter (fun p => p.1 != k)

/-- One GeoJSON feature: geometry plus a property bag
(the constant `"type": "Feature"` key is omitted). -/
structure Feature where
  geometry : Val
  properties : PropBag
deriving DecidableEq, Repr

/-- `feature.get("properties", {}).get("id")` — the identity used for
deduplication throughout the connector. -/
def getId (f : Feature) : Option Val :=
  pget f.properties "id"

/-- A feature collection: features plus the property-name manifest
(the constant `"type": "FeatureCollection"` key is omitted).  The
Python literal `{}` is represented by `⟨[], []⟩`. -/
structure Dataset where
  features : List Feature
  properties : List String
deriving DecidableEq, Repr

/-- `combined["properties"].update(data.get("properties", []))` — set
union, realised on lists by appending unseen names. -/
def unionProps (acc : List String) (ps : List String) : List String :=
  ps.foldl (fun a p => if p ∈ a then a else a ++ [p]) acc

/-- Body of the union loop (`lines 229-234` and `319-324`): append a
feature only when it has an `id` that was not seen before. -/
def addFeature (st : List Feature × List Val) (f : Feature) :
    List Feature × List Val :=
  match getId f with
  | none => st
  | some v => if v ∈ st.2 then st else (st.1 ++ [f], st.2 ++ [v])

/-- Accumulator of the union step: features built so far, the running
id set `seen_ids`, and the property-name manifest. -/
structure CombineSt where
  features : List Feature
  seen : List Val
  props : List String
deriving DecidableEq, Repr

/-- Per-dataset step of the union loop (`lines 224-234`/`314-324`). -/
def combineFold (st : CombineSt) (data : Dataset) : CombineSt :=
  let props := unionProps st.props data.properties
  let fs := data.features.foldl addFeature (st.features, st.seen)
  ⟨fs.1, fs.2, props⟩

/-- The union step shared verbatim by `fetch_text_search_ggl_maps_api`
(`lines 213-237`) and `fetch_cat_google_maps_api` (`lines 303-327`):
fold every dataset into one combined, deduplicated collection. -/
def combineDatasets (ds : List Dataset) : Dataset :=
  let st := ds.foldl combineFold ⟨[], [], []⟩
  ⟨st.features, st.props⟩

/-- Specification-side restatement of the union step (used only to be
compared against `combineDatasets`): keep the first occurrence of every
feature that carries an id not in `seen`, drop id-less features and
later duplicates. -/
def dedupFirstById (seen : List Val) : List Feature → List Feature
  | [] => []
  | f :: fs =>
    match getId f with
    | none => dedupFirstById seen fs
    | some v =>
      if v ∈ seen then dedupFirstById seen fs
      else f :: dedupFirstById (seen ++ [v]) fs

/-- The id set accumulated by `dedupFirstById`. -/
def dedupSeenAfter (seen : List Val) : List Feature → List Val
  | [] => seen
  | f :: fs =>
    match getId f with
    | none => dedupSeenAfter seen fs
    | some v =>
      if v ∈ seen then dedupSeenAfter seen fs
      else dedupSeenAfter (seen ++ [v]) fs

/-- `MIN_DELAY = 0.7` seconds, as an exact rational (scaling a float by
a power of two is exact, so rational arithmetic models the backoff
products faithfully). -/
def MIN_DELAY : ℚ := 7 / 10

/-- Observable events of one HTTP-call invocation: the pacing sleep
before each attempt, the attempt itself (with the protocol in use and
the status the provider answers), and each backoff sleep. -/
inductive Ev where
  | pace
  | attempt (legacy : Bool) (status : Nat)
  | backoff (delay : ℚ)
deriving DecidableEq, Repr

/-- `{"name": f"Faild to retreive data {status}", "id": "n/a"}` — the
sentinel record built at `google_api_connector.py:564-569`. -/
def sentinelPlace (status : Nat) : PropBag :=
  [("name", .vstr ("Faild to retreive data " ++ toString status)),
   ("id", .vstr "n/a")]

/-- The retry loop of `make_post_api_call` (`lines 521-569`), non-test
mode.  `resp n` is the status and `places` payload the provider gives
on the n-th HTTP attempt; `rc` is `retry_count`, `useLegacy` the
`use_legacy` flag.  Returns the event trace and the value the Python
function returns (`none` for the implicit fall-through return, which is
unreachable from the entry state).  On the final failed primary attempt
the source runs `retry_count -= 2` (so `3 - 2 = 1` here appears as
`rc - 1` after the un-incremented `rc = 2`) and rebuilds the payload in
legacy form before continuing. -/
def postLoop (resp : Nat → Nat × List PropBag) (n rc : Nat)
    (useLegacy : Bool) : List Ev × Option (List PropBag) :=
  if _h1 : 3 ≤ rc then ([], none)
  else
    if (resp n).1 = 200 then
      ([.pace, .attempt useLegacy (resp n).1], some (resp n).2)
    else if _h2 : rc + 1 < 3 then
      let rest := postLoop resp (n + 1) (rc + 1) useLegacy
      (.pace :: .attempt useLegacy (resp n).1
         :: .backoff (MIN_DELAY * 2 ^ (rc + 1)) :: rest.1, rest.2)
    else if _h3 : useLegacy = false then
      let rest := postLoop resp (n + 1) (rc - 1) true
      (.pace :: .attempt useLegacy (resp n).1 :: rest.1, rest.2)
    else
      ([.pace, .attempt useLegacy (resp n).1],
       some (List.replicate 20 (sentinelPlace (resp n).1)))
termination_by (3 - rc) + (if useLegacy then 0 else 2)
decreasing_by
  · cases useLegacy <;> simp <;> omega
  · subst _h3 <;> simp <;> omega

/-- `make_post_api_call` entry: `retry_count = 0`, `use_legacy = False`. -/
def makePostApiCall (resp : Nat → Nat × List PropBag) :
    List Ev × Option (List PropBag) :=
  postLoop resp 0 0 false

/-- The retry loop of `make_get_api_call` (`lines 478-510`), non-test
mode: same pacing/backoff shape, no legacy fallback; after the third
failed attempt it returns the empty dict `{}`. -/
def getLoop (resp : Nat → Nat × PropBag) (n rc : Nat) :
    List Ev × Option PropBag :=
  if _h1 : 3 ≤ rc then ([], none)
  else
    if (resp n).1 = 200 then
      ([.pace, .attempt false (resp n).1], some (resp n).2)
    else if _h2 : rc + 1 < 3 then
      let rest := getLoop resp (n + 1) (rc + 1)
      (.pace :: .attempt false (resp n).1
         :: .backoff (MIN_DELAY * 2 ^ (rc + 1)) :: rest.1, rest.2)
    else
      ([.pace, .attempt false (resp n).1], some [])
termination_by 3 - rc
decreasing_by omega

/-- `make_get_api_call` entry. -/
def makeGetApiCall (resp : Nat → Nat × PropBag) :
    List Ev × Option PropBag :=
  getLoop resp 0 0

/-- Trace classifier: an attempt on the primary (modern) protocol. -/
def isPrimaryAttempt : Ev → Bool
  | .attempt false _ => true
  | _ => false

/-- Trace classifier: an attempt on the legacy protocol. -/
def isLegacyAttempt : Ev → Bool
  | .attempt true _ => true
  | _ => false

/-- Trace classifier: any attempt. -/
def isAttempt : Ev → Bool
  | .attempt _ _ => true
  | _ => false

/-- The protocol flag of an attempt event, `none` otherwise. -/
def attemptFlag : Ev → Option Bool
  | .attempt l _ => some l
  | _ => none

/-- The delay of a backoff event, `none` otherwise. -/
def backoffDelay : Ev → Option ℚ
  | .backoff d => some d
  | _ => none

/-- Cache fingerprints for one fixed request geometry:
`make_dataset_filename(req)` is `combined`,
`make_dataset_filename_part(req, inc, exc)` is `part inc exc`
(the filename builders live in the absent `storage` collaborator; the
spec only requires the keys be deterministic and distinct per
term-set). -/
inductive FP where
  | combined
  | part (inc exc : List String)
deriving DecidableEq, Repr

/-- Key lookup in an insertion-ordered association list (Python dict
membership / subscript). -/
def alookup {α : Type} (l : List (FP × α)) (k : FP) : Option α :=
  (l.find? (fun p => decide (p.1 = k))).map (fun p => p.2)

/-- Python dict write `d[k] = v`: overwrite in place when the key
exists (keeping its original position), append otherwise. -/
def ainsert {α : Type} (l : List (FP × α)) (k : FP) (v : α) :
    List (FP × α) :=
  if (l.find? (fun p => decide (p.1 = k))).isSome then
    l.map (fun p => if p.1 = k then (k, v) else p)
  else l ++ [(k, v)]

/-- External collaborators of `fetch_text_search_ggl_maps_api`, given
as oracles: `cache` is `load_dataset` (with `none` for a Python-falsy
result), `fmt` is `convert_strings_to_ints ∘ new_ggl_to_boxmap`, `post`
summarises the value `make_post_api_call` resolves to for a text query,
`loadDetails` is `load_place_details`, and `getDetails` summarises the
value `make_get_api_call` resolves to for a place id. -/
structure TextEnv where
  cache : FP → Option Dataset
  fmt : List PropBag → Dataset
  post : String → List PropBag
  loadDetails : Option Val → Option PropBag
  getDetails : Option Val → PropBag

/-- State of the first cache-scan loop (`lines 86-132`):
`separte_parts_datasets`, `missing_queries`, and the `load_dataset`
lookups made so far. -/
structure ScanSt where
  separte : List (FP × Dataset)
  missing : List (FP × (List String × List String))
  reads : List FP

/-- Lines 95-112: resolve-or-schedule the include-only dataset. -/
def scanInclude (env : TextEnv) (st : ScanSt) (inc : List String) :
    ScanSt :=
  if inc ≠ [] then
    let iid := FP.part inc []
    if (alookup st.missing iid).isNone && (alookup st.separte iid).isNone
    then
      let st1 := { st with reads := st.reads ++ [iid] }
      match env.cache iid with
      | some d => { st1 with separte := ainsert st1.separte iid d }
      | none => { st1 with missing := ainsert st1.missing iid (inc, []) }
    else st
  else st

/-- Lines 114-132: resolve-or-schedule the exclude-only dataset. -/
def scanExclude (env : TextEnv) (st : ScanSt) (exc : List String) :
    ScanSt :=
  if exc ≠ [] then
    let eid := FP.part [] exc
    if (alookup st.missing eid).isNone && (alookup st.separte eid).isNone
    then
      let st1 := { st with reads := st.reads ++ [eid] }
      match env.cache eid with
      | some d => { st1 with separte := ainsert st1.separte eid d }
      | none => { st1 with missing := ainsert st1.missing eid ([], exc) }
    else st
  else st

/-- Lines 86-132, one tuple: try the partial fingerprint, otherwise
fall back to the atomic include-only / exclude-only fingerprints. -/
def scanTuple (env : TextEnv) (st : ScanSt)
    (q : List String × List String) : ScanSt :=
  let pid := FP.part q.1 q.2
  let st1 := { st with reads := st.reads ++ [pid] }
  match env.cache pid with
  | some d => { st1 with separte := ainsert st1.separte pid d }
  | none => scanExclude env (scanInclude env st1 q.1) q.2

/-- One details resolution inside `single_ggl_text_call`
(`lines 583-596`): consult `load_place_details` first; on a miss call
the details endpoint (one external call) and store a truthy result.
Returns (value appended to `detailed_results`, external calls,
`store_place_details` events). -/
def detailsFor (env : TextEnv) (pid : Option Val) :
    PropBag × Nat × List (Option Val × PropBag) :=
  match env.loadDetails pid with
  | some d => (d, 0, [])
  | none =>
    let d := env.getDetails pid
    (d, 1, if d ≠ [] then [(pid, d)] else [])

/-- The `for place in results` details loop of `single_ggl_text_call`
(`lines 582-597`): the loaded-or-fetched details value is appended
unconditionally. -/
def detailsPhase (env : TextEnv) (places : List PropBag) :
    List PropBag × Nat × List (Option Val × PropBag) :=
  places.foldl
    (fun acc place =>
      let r := detailsFor env (pget place "id")
      (acc.1 ++ [r.1], acc.2.1 + r.2.1, acc.2.2 ++ r.2.2))
    ([], 0, [])

/-- `single_ggl_text_call` (`lines 573-599`), non-test mode, the POST
call counting as one external call: result list, external-call count,
place-details store events. -/
def singleTextCall (env : TextEnv) (idsOnly : Bool) (tq : String) :
    List PropBag × Nat × List (Option Val × PropBag) :=
  let results := env.post tq
  if idsOnly then
    let r := detailsPhase env results
    (r.1, 1 + r.2.1, r.2.2)
  else (results, 1, [])

/-- `included_terms[0]` if non-empty, else `excluded_terms[0]`
(`lines 141-144`; `missing_queries` entries always have exactly one
non-empty side, so the `""` default is dead code). -/
def headTerm : List String × List String → String
  | (t :: _, _) => t
  | ([], ts) => ts.headD ""

/-- State after the missing-query fetch phase (`lines 134-162`). -/
structure FetchSt where
  separte : List (FP × Dataset)
  calls : Nat
  stores : List (FP × Dataset)
  dstores : List (Option Val × PropBag)

/-- Lines 134-162: fetch every missing atomic query, then format and
persist each non-empty result under its atomic fingerprint
(`process_and_store_to_db`). -/
def fetchMissing (env : TextEnv) (idsOnly : Bool)
    (separte : List (FP × Dataset))
    (missing : List (FP × (List String × List String))) : FetchSt :=
  missing.foldl
    (fun st entry =>
      let r := singleTextCall env idsOnly (headTerm entry.2)
      if r.1 ≠ [] then
        let fr := env.fmt r.1
        { st with
          separte := ainsert st.separte entry.1 fr
          calls := st.calls + r.2.1
          stores := st.stores ++ [(entry.1, fr)]
          dstores := st.dstores ++ r.2.2 }
      else
        { st with
          calls := st.calls + r.2.1
          dstores := st.dstores ++ r.2.2 })
    ⟨separte, 0, [], []⟩

/-- The reconstruction body (`lines 185-211`) for one tuple, on the
resolved include/exclude datasets (`none` models a Python-falsy
value).  First component: the value assigned to
`datasets[partial_dataset_id]` (`none` when the source leaves the key
unassigned, which happens exactly when the subtraction comes out
empty); second component: the dataset persisted under the partial
fingerprint, present only in the both-present non-empty branch. -/
def reconstructTuple (includeD excludeD : Option Dataset) :
    Option Dataset × Option Dataset :=
  match includeD with
  | none => (some ⟨[], []⟩, none)
  | some inc =>
    match excludeD with
    | none => (some inc, none)
    | some exc =>
      let idsToExclude := exc.features.map getId
      let filtered := inc.features.filter
        (fun p => decide (getId p ∉ idsToExclude))
      if filtered ≠ [] then
        let fd : Dataset := ⟨filtered, inc.properties⟩
        (some fd, some fd)
      else (none, none)

/-- State of the reconstruction loop (`lines 164-211`). -/
structure RebuildSt where
  datasets : List (FP × Dataset)
  reads : List FP
  stores : List (FP × Dataset)

/-- Lines 169-178: take the dataset from `separte_parts_datasets` when
present, otherwise load it from the store. -/
def resolvePart (env : TextEnv) (separte : List (FP × Dataset))
    (st : RebuildSt) (k : FP) : Option Dataset × RebuildSt :=
  match alookup separte k with
  | some d => (some d, st)
  | none => (env.cache k, { st with reads := st.reads ++ [k] })

/-- Lines 164-211, one tuple: resolve both sides, reconstruct, persist
the filtered dataset when the both-present branch produced one. -/
def rebuildTuple (env : TextEnv) (separte : List (FP × Dataset))
    (st : RebuildSt) (q : List String × List String) : RebuildSt :=
  let iid := FP.part q.1 []
  let eid := FP.part [] q.2
  let r1 := resolvePart env separte st iid
  let r2 := resolvePart env separte r1.2 eid
  let pid := FP.part q.1 q.2
  let r := reconstructTuple r1.1 r2.1
  let st3 :=
    match r.2 with
    | some fd => { r2.2 with stores := r2.2.stores ++ [(pid, fd)] }
    | none => r2.2
  match r.1 with
  | some d => { st3 with datasets := ainsert st3.datasets pid d }
  | none => st3

/-- Lines 239-244: `del feature["properties"]["id"]` over the combined
features. -/
def stripIds (d : Dataset) : Dataset :=
  ⟨d.features.map (fun f => ⟨f.geometry, pdel f.properties "id"⟩),
   d.properties⟩

/-- Lines 239-249: persist a non-empty combined dataset under the
combined fingerprint, then — only when `ids_and_location_only` is NOT
set — delete the internal `id` property from every returned feature.
Returns (function result, store event). -/
def finalizeCombined (idsOnly : Bool) (combined : Dataset) :
    Dataset × Option Dataset :=
  if combined.features ≠ [] then
    (if idsOnly then combined else stripIds combined, some combined)
  else (combined, none)

/-- Everything `fetch_text_search_ggl_maps_api` does after the
combined-fingerprint short-circuit, with full instrumentation. -/
structure CoreResult where
  combined : Dataset
  datasets : List (FP × Dataset)
  reads : List FP
  calls : Nat
  stores : List (FP × Dataset)
  dstores : List (Option Val × PropBag)

/-- Lines 82-237: cache scan, fetch of missing atomic queries,
reconstruction, union. -/
def textCore (env : TextEnv) (idsOnly : Bool)
    (queries : List (List String × List String)) : CoreResult :=
  let sc := queries.foldl (scanTuple env) ⟨[], [], []⟩
  let fe := fetchMissing env idsOnly sc.separte sc.missing
  let rb := queries.foldl (rebuildTuple env fe.separte) ⟨[], [], []⟩
  let combined := combineDatasets (rb.datasets.map (fun p => p.2))
  ⟨combined, rb.datasets, sc.reads ++ rb.reads, fe.calls,
    fe.stores ++ rb.stores, fe.dstores⟩

/-- Result of one acquisition function: the returned dataset plus the
instrumented side effects (cache reads in order, external-call count,
`store_data_resp` events in order, `store_place_details` events). -/
structure RunResult where
  output : Dataset
  reads : List FP
  calls : Nat
  stores : List (FP × Dataset)
  dstores : List (Option Val × PropBag)
deriving DecidableEq, Repr

/-- `fetch_text_search_ggl_maps_api` (`lines 64-249`), non-test mode:
combined-fingerprint short-circuit, then the core pipeline and the
finalisation step. -/
def fetchTextSearch (env : TextEnv) (idsOnly : Bool)
    (queries : List (List String × List String)) : RunResult :=
  match env.cache FP.combined with
  | some d => ⟨d, [FP.combined], 0, [], []⟩
  | none =>
    let core := textCore env idsOnly queries
    let fin := finalizeCombined idsOnly core.combined
    ⟨fin.1, FP.combined :: core.reads, core.calls,
      core.stores ++
        (match fin.2 with
         | some cd => [(FP.combined, cd)]
         | none => []),
      core.dstores⟩

/-- External collaborators of `fetch_cat_google_maps_api`: as for the
text search, with `post` summarising the value `make_post_api_call`
resolves to for an (included, excluded) type pair. -/
structure CatEnv where
  cache : FP → Option Dataset
  fmt : List PropBag → Dataset
  post : List String → List String → List PropBag

/-- State of the category cache-scan loop (`lines 266-280`). -/
structure CatSt where
  datasets : List (FP × Dataset)
  missing : List (FP × (List String × List String))
  reads : List FP

/-- Lines 269-280, one tuple: cache hit or schedule the full query. -/
def catScan (env : CatEnv) (st : CatSt)
    (q : List String × List String) : CatSt :=
  let fid := FP.part q.1 q.2
  let st1 := { st with reads := st.reads ++ [fid] }
  match env.cache fid with
  | some d => { st1 with datasets := ainsert st1.datasets fid d }
  | none => { st1 with missing := st1.missing ++ [(fid, q)] }

/-- `fetch_cat_google_maps_api` (`lines 252-337`), non-test mode:
combined-fingerprint short-circuit, per-tuple cache scan, fetch of
missing queries (`single_ggl_cat_call`, one external call each), the
shared union step, final persist — and no id-stripping. -/
def fetchCatSearch (env : CatEnv)
    (queries : List (List String × List String)) : RunResult :=
  match env.cache FP.combined with
  | some d => ⟨d, [FP.combined], 0, [], []⟩
  | none =>
    let sc := queries.foldl (catScan env) ⟨[], [], []⟩
    let fe := sc.missing.foldl
      (fun (st : List (FP × Dataset) × Nat × List (FP × Dataset))
           entry =>
        let results := env.post entry.2.1 entry.2.2
        if results ≠ [] then
          let fr := env.fmt results
          (ainsert st.1 entry.1 fr, st.2.1 + 1,
           st.2.2 ++ [(entry.1, fr)])
        else (st.1, st.2.1 + 1, st.2.2))
      (sc.datasets, 0, [])
    let combined := combineDatasets (fe.1.map (fun p => p.2))
    if combined.features ≠ [] then
      ⟨combined, FP.combined :: sc.reads, fe.2.1,
        fe.2.2 ++ [(FP.combined, combined)], []⟩
    else
      ⟨combined, FP.combined :: sc.reads, fe.2.1, fe.2.2, []⟩

/-- Feature content of a `datasets` entry: an unassigned key
contributes nothing to the union, exactly like an empty collection. -/
def entryFeatures (o : Option Dataset) : List Feature :=
  match o with
  | some d => d.features
  | none => []

/-- Python truthiness of a dynamic value. -/
def pyTruthy : Val → Bool
  | .vstr s => s != ""
  | .vint n => n != 0
  | .vnone => false
  | .vnil => false
  | .vcons _ _ => true
  | .dnil => false
  | .ventry _ _ _ => true

/-- Python `len` on the value kinds the filters apply it to. -/
def pyLen : Val → Nat
  | .vstr s => s.length
  | .vcons _ tl => 1 + pyLen tl
  | .ventry _ _ tl => 1 + pyLen tl
  | _ => 0

/-- `.get(key, dflt)` on a dict-valued `Val`. -/
def dget : Val → String → Val → Val
  | .ventry k v tl, key, dflt => if k = key then v else dget tl key dflt
  | _, _, dflt => dflt

/-- `int(x)` guarded by `try/except ValueError` (`lines 872-875`). -/
def pyIntOr0 : Val → Int
  | .vint n => n
  | .vstr s => (s.toInt?).getD 0
  | _ => 0

/-- Lines 793-798 of `fetch_ggl_nearby`: drop every feature whose `id`
property equals `"n/a"` (an absent `id` compares un-equal to `"n/a"`
and is kept, as in Python). -/
def stripSentinels (d : Dataset) : Dataset :=
  ⟨d.features.filter
     (fun f => decide (pget f.properties "id" ≠ some (.vstr "n/a"))),
   d.properties⟩

/-- The per-feature predicate of `filter_ggl_data_valid_locations`
(`lines 848-886`).  A non-integer `popularity_score` would raise in
Python; the data is numeric, and the model keeps such a feature only
through the photos disjunct. -/
def keepValid (includeRating : Bool) (f : Feature) : Bool :=
  let props := f.properties
  if includeRating then
    let ur := pgetD props "user_ratings_total" (.vstr "")
    let phone := pgetD props "phone" (.vstr "")
    let ratingCount := if pyTruthy ur then pyIntOr0 ur else 0
    decide (ratingCount > 3) || (pyTruthy phone && phone != .vstr "")
  else
    let photos0 := pgetD props "photos" .vnil
    let photos :=
      if !(pyTruthy photos0) then
        dget (pgetD props "googleMapsLinks" .dnil) "photosUri" (.vstr "")
      else photos0
    let pop := pgetD props "popularity_score" (.vint 0)
    (pyTruthy photos && decide (0 < pyLen photos)) ||
      (match pop with
       | .vint m => decide (100 < m)
       | _ => false)

/-- `filter_ggl_data_valid_locations` (`lines 848-899`): filter the
features, copy every other dataset key unchanged. -/
def filterValidLocations (includeRating : Bool) (d : Dataset) : Dataset :=
  ⟨d.features.filter (keepValid includeRating), d.properties⟩

/-- The allow-list of `select_sub_properties` (`lines 819-823`). -/
def subFields : List String :=
  ["displayName", "rating", "formattedAddress",
   "internationalPhoneNumber", "types", "priceLevel", "primaryType",
   "userRatingCount", "location", "name", "id"]

/-- Lines 827-841: rebuild one feature keeping geometry plus the
allow-listed property keys that are present. -/
def projectFeature (f : Feature) : Feature :=
  ⟨f.geometry,
   subFields.filterMap (fun k => (pget f.properties k).map (fun v => (k, v)))⟩

/-- `select_sub_properties` (`lines 818-845`). -/
def selectSubProperties (d : Dataset) : Dataset :=
  ⟨d.features.map projectFeature, d.properties⟩

/-- Collaborators and per-iteration inputs of `fetch_ggl_nearby`:
`processStep` summarises `process_req_plan` (iteration ↦
`current_plan_index`), `queryResult` the dataset `query_ggl` returns on
that iteration, `rectify` is `rectify_plan` (current index ↦ (next
index, next token)); the two flags mirror `req.include_rating_info` and
`req.include_only_sub_properties`. -/
structure NearbyEnv where
  processStep : Nat → Nat
  queryResult : Nat → Dataset
  rectify : Nat → Int × String
  includeRating : Bool
  subPropsOnly : Bool

/-- The bounded acquisition loop of `fetch_ggl_nearby`
(`lines 748-779`) in "full data" mode; `fuel` is the number of
iterations still allowed after the current one (29 at entry, for
`range(30)`).  Returns `current_plan_index`, the loop-exit dataset,
`next_plan_index`, and — instrumentation — the list of
`len(features) == 0` checks the loop evaluated, in order.  The check is
evaluated on the dataset exactly as `query_ggl` returned it. -/
def nearbyLoop (env : NearbyEnv) (fuel i : Nat) (next : Int)
    (checks : List Bool) : Nat × Dataset × Int × List Bool :=
  let current := env.processStep i
  let d := env.queryResult i
  let checks1 := checks ++ [decide (d.features.length = 0)]
  if d.features.length = 0 then
    let r := env.rectify current
    if r.1 = -1 then (current, d, r.1, checks1)
    else
      match fuel with
      | 0 => (current, d, r.1, checks1)
      | Nat.succ fuel' => nearbyLoop env fuel' (i + 1) r.1 checks1
  else (current, d, next, checks1)

/-- Observable outcome of `fetch_ggl_nearby`: the returned dataset,
the returned `next_plan_index`, its value just before the final
maximum step (`preMaxNext`), the `current_plan_index` of the step
actually used, the `mark_plan_result` call (step, has-features), the
loop-exit dataset before sentinel stripping, and the zero-checks the
loop evaluated. -/
structure NearbyResult where
  output : Dataset
  nextIdx : Int
  preMaxNext : Int
  currentIdx : Nat
  marked : Option (Nat × Bool)
  loopDataset : Dataset
  checks : List Bool
deriving DecidableEq, Repr

/-- `fetch_ggl_nearby` (`lines 740-816`), with `fullData` selecting the
`"full data"` action (otherwise `"sample"`).  Order of the final phase
as in the source: post-loop below-threshold rectification (line 782-787),
the forward-progress maximum (790-791), sentinel stripping (793-798),
plan marking (801-806), the validity filter (810-811, full data only),
and the sub-property projection (812-813). -/
def fetchGglNearby (env : NearbyEnv) (fullData : Bool) : NearbyResult :=
  if fullData then
    let lr := nearbyLoop env 29 0 0 []
    let current := lr.1
    let d0 := lr.2.1
    let next0 := lr.2.2.1
    let checks := lr.2.2.2
    let next1 :=
      if d0.features.length < 20 then (env.rectify current).1 else next0
    let next2 :=
      if (current + 1 : Int) > next1 then (current + 1 : Int) else next1
    let stripped := stripSentinels d0
    let marked := some (current, decide (0 < stripped.features.length))
    let d1 := filterValidLocations env.includeRating stripped
    let d2 := if env.subPropsOnly then selectSubProperties d1 else d1
    ⟨d2, next2, next1, current, marked, d0, checks⟩
  else
    let d0 := env.queryResult 0
    let next2 : Int := if (0 + 1 : Int) > 0 then 0 + 1 else 0
    let stripped := stripSentinels d0
    let d2 :=
      if env.subPropsOnly then selectSubProperties stripped else stripped
    ⟨d2, next2, 0, 0, none, d0, []⟩

/- Concrete inputs used by counterexamples and witnesses. -/

/-- A feature with id `"x"`. -/
def featX : Feature := ⟨.vnone, [("id", .vstr "x")]⟩

/-- A one-feature dataset. -/
def dsX : Dataset := ⟨[featX], ["id"]⟩

/-- A feature with id `"y"`. -/
def featY : Feature := ⟨.vnone, [("id", .vstr "y")]⟩

/-- A second one-feature dataset. -/
def dsY : Dataset := ⟨[featY], ["id"]⟩

/-- A feature with no `id` property at all. -/
def featNoId : Feature := ⟨.vnone, [("name", .vstr "anon")]⟩

/-- A provider that answers 429 to every POST attempt. -/
def resp429 : Nat → Nat × List PropBag := fun _ => (429, [])

/-- A provider that answers 429 to every GET attempt. -/
def resp429g : Nat → Nat × PropBag := fun _ => (429, [])

/-- Text environment with an empty store, one place with id `"x"`
answered for every text query, and cached details for every place. -/
def envC2 : TextEnv where
  cache := fun _ => none
  fmt := fun _ => dsX
  post := fun _ => [[("id", .vstr "x")]]
  loadDetails := fun _ => some [("id", .vstr "x")]
  getDetails := fun _ => []

/-- The single-tuple query sequence `[(["cafe"], [])]`. -/
def qsC2 : List (List String × List String) := [(["cafe"], [])]

/-- Text environment where the include-only dataset is cached and the
exclude-term query returns nothing (so the exclude dataset never comes
into existence). -/
def envC3 : TextEnv where
  cache := fun k => if k = FP.part ["a"] [] then some dsX else none
  fmt := fun _ => dsX
  post := fun _ => []
  loadDetails := fun _ => none
  getDetails := fun _ => []

/-- The single-tuple query sequence `[(["a"], ["b"])]`. -/
def qsC3 : List (List String × List String) := [(["a"], ["b"])]

/-- A sentinel feature as the formatter would produce it from a
sentinel place record. -/
def sentinelFeat : Feature :=
  ⟨.vnone, [("id", .vstr "n/a"),
            ("name", .vstr "Faild to retreive data 429")]⟩

/-- A dataset holding only the sentinel feature. -/
def dsSentinel : Dataset := ⟨[sentinelFeat], ["id", "name"]⟩

/-- Nearby environment whose acquisition yields the sentinel-only
dataset on every plan step. -/
def envC4 : NearbyEnv where
  processStep := fun _ => 0
  queryResult := fun _ => dsSentinel
  rectify := fun _ => (5, "tok")
  includeRating := false
  subPropsOnly := false

/-- Text environment whose provider degrades to sentinel records. -/
def envC4p : TextEnv where
  cache := fun _ => none
  fmt := fun _ => dsSentinel
  post := fun _ => [sentinelPlace 429]
  loadDetails := fun _ => none
  getDetails := fun _ => []

/-- The single-tuple query sequence `[(["x"], [])]`. -/
def qsC4 : List (List String × List String) := [(["x"], [])]

/-- Text environment whose combined fingerprint is already cached. -/
def envHitT : TextEnv where
  cache := fun _ => some dsX
  fmt := fun _ => dsX
  post := fun _ => []
  loadDetails := fun _ => none
  getDetails := fun _ => []

/-- Category environment whose combined fingerprint is already
cached. -/
def envHitC : CatEnv where
  cache := fun _ => some dsY
  fmt := fun _ => dsY
  post := fun _ _ => []

/-- Nearby environment returning a plain non-sentinel dataset. -/
def envC8 : NearbyEnv where
  processStep := fun _ => 3
  queryResult := fun _ => dsX
  rectify := fun _ => (7, "tok")
  includeRating := false
  subPropsOnly := false

/-- A feature with an id and one photo (so the validity filter keeps
it). -/
def featPhoto : Feature :=
  ⟨.vnone, [("id", .vstr "z"), ("photos", .vcons .vnone .vnil)]⟩

/-- Nearby environment whose acquisition yields one valid feature. -/
def envC4w : NearbyEnv where
  processStep := fun _ => 0
  queryResult := fun _ => ⟨[featPhoto], ["id", "photos"]⟩
  rectify := fun _ => (-1, "")
  includeRating := false
  subPropsOnly := false

/-! Helper lemmas about the union step. -/

theorem addFeature_foldl (fs : List Feature) (acc : List Feature)
    (seen : List Val) :
    fs.foldl addFeature (acc, seen) =
      (acc ++ dedupFirstById seen fs, dedupSeenAfter seen fs) := by
  induction fs generalizing acc seen with
  | nil => simp [dedupFirstById, dedupSeenAfter]
  | cons f fs ih =>
    cases h : getId f with
    | none =>
      simp only [List.foldl_cons, addFeature, h, dedupFirstById,
        dedupSeenAfter]
      exact ih acc seen
    | some v =>
      by_cases hv : v ∈ seen
      · simp only [List.foldl_cons, addFeature, h, dedupFirstById,
          dedupSeenAfter, if_pos hv]
        exact ih acc seen
      · simp only [List.foldl_cons, addFeature, h, dedupFirstById,
          dedupSeenAfter, if_neg hv]
        rw [ih]
        simp

theorem dedupSeenAfter_append (seen : List Val) (xs ys : List Feature) :
    dedupSeenAfter seen (xs ++ ys) =
      dedupSeenAfter (dedupSeenAfter seen xs) ys := by
  induction xs generalizing seen with
  | nil => simp [dedupSeenAfter]
  | cons f fs ih =>
    cases h : getId f with
    | none => simp only [List.cons_append, dedupSeenAfter, h]; exact ih seen
    | some v =>
      by_cases hv : v ∈ seen
      · simp only [List.cons_append, dedupSeenAfter, h, if_pos hv]
        exact ih seen
      · simp only [List.cons_append, dedupSeenAfter, h, if_neg hv]
        exact ih (seen ++ [v])

theorem dedupFirstById_append (seen : List Val) (xs ys : List Feature) :
    dedupFirstById seen (xs ++ ys) =
      dedupFirstById seen xs ++
        dedupFirstById (dedupSeenAfter seen xs) ys := by
  induction xs generalizing seen with
  | nil => simp [dedupFirstById, dedupSeenAfter]
  | cons f fs ih =>
    cases h : getId f with
    | none =>
      simp only [List.cons_append, dedupFirstById, dedupSeenAfter, h]
      exact ih seen
    | some v =>
      by_cases hv : v ∈ seen
      · simp only [List.cons_append, dedupFirstById, dedupSeenAfter, h,
          if_pos hv]
        exact ih seen
      · simp only [List.cons_append, dedupFirstById, dedupSeenAfter, h,
          if_neg hv, List.cons_append, List.append_eq]
        rw [ih]

theorem combineFold_foldl (ds : List Dataset) (st : CombineSt) :
    ds.foldl combineFold st =
      ⟨st.features ++
         dedupFirstById st.seen (ds.flatMap (fun d => d.features)),
       dedupSeenAfter st.seen (ds.flatMap (fun d => d.features)),
       ds.foldl (fun a d => unionProps a d.properties) st.props⟩ := by
  induction ds generalizing st with
  | nil => simp [dedupFirstById, dedupSeenAfter]
  | cons d ds ih =>
    simp only [List.foldl_cons, List.flatMap_cons]
    rw [ih]
    simp only [combineFold, addFeature_foldl, dedupFirstById_append,
      dedupSeenAfter_append, List.append_assoc]

theorem mem_unionProps (acc ps : List String) (p : String) :
    p ∈ unionProps acc ps ↔ p ∈ acc ∨ p ∈ ps := by
  induction ps generalizing acc with
  | nil => simp [unionProps]
  | cons q ps ih =>
    show p ∈ unionProps (if q ∈ acc then acc else acc ++ [q]) ps ↔ _
    by_cases hq : q ∈ acc
    · rw [if_pos hq, ih]
      simp only [List.mem_cons]
      constructor
      · rintro (h | h)
        · exact Or.inl h
        · exact Or.inr (Or.inr h)
      · rintro (h | h | h)
        · exact Or.inl h
        · exact Or.inl (h ▸ hq)
        · exact Or.inr h
    · rw [if_neg hq, ih]
      simp only [List.mem_append, List.mem_singleton, List.mem_cons]
      tauto

theorem mem_foldl_unionProps (ds : List Dataset) (acc : List String)
    (p : String) :
    p ∈ ds.foldl (fun a d => unionProps a d.properties) acc ↔
      p ∈ acc ∨ ∃ d ∈ ds, p ∈ d.properties := by
  induction ds generalizing acc with
  | nil => simp
  | cons d ds ih =>
    simp only [List.foldl_cons]
    rw [ih, mem_unionProps]
    simp only [List.mem_cons]
    constructor
    · rintro ((h | h) | ⟨e, he, hp⟩)
      · exact Or.inl h
      · exact Or.inr ⟨d, Or.inl rfl, h⟩
      · exact Or.inr ⟨e, Or.inr he, hp⟩
    · rintro (h | ⟨e, he | he, hp⟩)
      · exact Or.inl (Or.inl h)
      · exact Or.inl (Or.inr (he ▸ hp))
      · exact Or.inr ⟨e, he, hp⟩

theorem dedup_ids (fs : List Feature) (seen : List Val) :
    (∀ f ∈ dedupFirstById seen fs, ∃ v, getId f = some v ∧ v ∉ seen) ∧
    (dedupFirstById seen fs).Pairwise (fun a b => getId a ≠ getId b) := by
  induction fs generalizing seen with
  | nil => simp [dedupFirstById]
  | cons f fs ih =>
    cases h : getId f with
    | none =>
      simp only [dedupFirstById, h]
      exact ih seen
    | some v =>
      by_cases hv : v ∈ seen
      · simp only [dedupFirstById, h, if_pos hv]
        exact ih seen
      · simp only [dedupFirstById, h, if_neg hv]
        obtain ⟨ihMem, ihPw⟩ := ih (seen ++ [v])
        constructor
        · intro g hg
          rcases List.mem_cons.mp hg with hg | hg
          · exact ⟨v, hg ▸ h, hv⟩
          · obtain ⟨w, hw, hws⟩ := ihMem g hg
            refine ⟨w, hw, fun hmem => hws ?_⟩
            simp [hmem]
        · refine List.Pairwise.cons ?_ ihPw
          intro g hg
          obtain ⟨w, hw, hws⟩ := ihMem g hg
          rw [h, hw]
          intro he
          apply hws
          simp [(Option.some_inj.mp he).symm]

/-- C5: in every combined dataset produced by the shared union step, no
two features share an id; the combined features are exactly the
first-occurrence-wins deduplication of the concatenated input features;
and the combined property-name manifest is the set union of the
contributing datasets' property names. -/
theorem union_dedup_first_wins (ds : List Dataset) :
    (combineDatasets ds).features.Pairwise
      (fun a b => getId a ≠ getId b) ∧
    (combineDatasets ds).features =
      dedupFirstById [] (ds.flatMap (fun d => d.features)) ∧
    (∀ p, p ∈ (combineDatasets ds).properties ↔
       ∃ d ∈ ds, p ∈ d.properties) := by
  have hmaster := combineFold_foldl ds ⟨[], [], []⟩
  have hfeat : (combineDatasets ds).features =
      dedupFirstById [] (ds.flatMap (fun d => d.features)) := by
    simp [combineDatasets, hmaster]
  refine ⟨?_, hfeat, ?_⟩
  · rw [hfeat]
    exact (dedup_ids _ []).2
  · intro p
    have hprops : (combineDatasets ds).properties =
        ds.foldl (fun a d => unionProps a d.properties) [] := by
      simp [combineDatasets, hmaster]
    rw [hprops, mem_foldl_unionProps]
    simp

/-- C10: the union step drops every feature whose property bag lacks an
`id`: each feature of the combined dataset carries some id. -/
theorem union_drops_idless (ds : List Dataset) :
    ∀ f ∈ (combineDatasets ds).features, (getId f).isSome = true := by
  intro f hf
  have hmaster := combineFold_foldl ds ⟨[], [], []⟩
  have hfeat : (combineDatasets ds).features =
      dedupFirstById [] (ds.flatMap (fun d => d.features)) := by
    simp [combineDatasets, hmaster]
  rw [hfeat] at hf
  obtain ⟨v, hv, _⟩ := (dedup_ids _ []).1 f hf
  simp [hv]

/-- Witness for C10 at a dataset that also contains an id-less feature
(which the union omits). -/
theorem union_drops_idless_w : (getId featX).isSome = true :=
  union_drops_idless [⟨[featNoId, featX], ["id"]⟩] featX (by decide)

/-! Helper lemmas about the retry state machines. -/

theorem postLoop_allFail (resp : Nat → Nat × List PropBag)
    (h : ∀ n, (resp n).1 ≠ 200) :
    makePostApiCall resp =
      ([.pace, .attempt false (resp 0).1, .backoff (MIN_DELAY * 2 ^ 1),
        .pace, .attempt false (resp 1).1, .backoff (MIN_DELAY * 2 ^ 2),
        .pace, .attempt false (resp 2).1,
        .pace, .attempt true (resp 3).1, .backoff (MIN_DELAY * 2 ^ 2),
        .pace, .attempt true (resp 4).1],
       some (List.replicate 20 (sentinelPlace (resp 4).1))) := by
  simp [makePostApiCall, postLoop, h]

theorem getLoop_allFail (resp : Nat → Nat × PropBag)
    (h : ∀ n, (resp n).1 ≠ 200) :
    makeGetApiCall resp =
      ([.pace, .attempt false (resp 0).1, .backoff (MIN_DELAY * 2 ^ 1),
        .pace, .attempt false (resp 1).1, .backoff (MIN_DELAY * 2 ^ 2),
        .pace, .attempt false (resp 2).1],
       some []) := by
  simp [makeGetApiCall, getLoop, h]

/-- C1 (amended): on a provider that never answers 200,
`make_post_api_call` performs exactly 3 primary attempts, switches to
the legacy payload exactly once with the retry counter rewound by 2
(from 3 to 1, not a full reset), performs exactly 2 legacy attempts,
and each backoff sleep after a failed attempt equals
`MIN_DELAY * 2 ^ k` where `k` is the just-incremented retry counter —
concretely the slept delays are `2¹·d, 2²·d, 2²·d`. -/
theorem post_retry_amended (resp : Nat → Nat × List PropBag)
    (h : ∀ n, (resp n).1 ≠ 200) :
    (makePostApiCall resp).1.countP isPrimaryAttempt = 3 ∧
    (makePostApiCall resp).1.countP isLegacyAttempt = 2 ∧
    (makePostApiCall resp).1.filterMap attemptFlag =
      [false, false, false, true, true] ∧
    (makePostApiCall resp).1.filterMap backoffDelay =
      [MIN_DELAY * 2 ^ 1, MIN_DELAY * 2 ^ 2, MIN_DELAY * 2 ^ 2] ∧
    (makePostApiCall resp).2 =
      some (List.replicate 20 (sentinelPlace (resp 4).1)) := by
  rw [postLoop_allFail resp h]
  refine ⟨?_, ?_, ?_, ?_, rfl⟩ <;>
    simp [isPrimaryAttempt, isLegacyAttempt, attemptFlag, backoffDelay,
      List.countP_cons]

/-- Witness for C1 (amended) at the constant-429 provider. -/
theorem post_retry_amended_w :
    (makePostApiCall resp429).1.countP isPrimaryAttempt = 3 ∧
    (makePostApiCall resp429).1.countP isLegacyAttempt = 2 ∧
    (makePostApiCall resp429).1.filterMap attemptFlag =
      [false, false, false, true, true] ∧
    (makePostApiCall resp429).1.filterMap backoffDelay =
      [MIN_DELAY * 2 ^ 1, MIN_DELAY * 2 ^ 2, MIN_DELAY * 2 ^ 2] ∧
    (makePostApiCall resp429).2 =
      some (List.replicate 20 (sentinelPlace 429)) :=
  post_retry_amended resp429 (fun _ => by norm_num [resp429])

/-- C1 counterexample: with the constant-429 provider the legacy phase
performs 2 attempts, not the 3 the claim states (the counter rewind
`retry_count -= 2` lands on 1, not 0). -/
theorem post_retry_legacy_count_cex :
    ¬ ((makePostApiCall resp429).1.countP isLegacyAttempt = 3) := by
  rw [postLoop_allFail resp429 (fun _ => by norm_num [resp429])]
  decide

/-- C6: when both the primary and the legacy attempts are exhausted,
`make_post_api_call` resolves (rather than raising) to a batch of
exactly 20 sentinel records, each carrying the placeholder name and the
identifier `"n/a"`. -/
theorem sentinel_batch_on_exhaust (resp : Nat → Nat × List PropBag)
    (h : ∀ n, (resp n).1 ≠ 200) :
    (makePostApiCall resp).2 =
      some (List.replicate 20 (sentinelPlace (resp 4).1)) ∧
    (List.replicate 20 (sentinelPlace (resp 4).1)).length = 20 ∧
    ∀ r ∈ List.replicate 20 (sentinelPlace (resp 4).1),
      pget r "id" = some (.vstr "n/a") ∧
      pget r "name" =
        some (.vstr ("Faild to retreive data " ++ toString (resp 4).1)) := by
  refine ⟨(postLoop_allFail resp h) ▸ rfl, by simp, ?_⟩
  intro r hr
  rw [List.eq_of_mem_replicate hr]
  exact ⟨rfl, rfl⟩

/-- Witness for C6 at the constant-429 provider. -/
theorem sentinel_batch_on_exhaust_w :
    (makePostApiCall resp429).2 =
      some (List.replicate 20 (sentinelPlace 429)) ∧
    (List.replicate 20 (sentinelPlace 429)).length = 20 ∧
    ∀ r ∈ List.replicate 20 (sentinelPlace 429),
      pget r "id" = some (.vstr "n/a") ∧
      pget r "name" =
        some (.vstr ("Faild to retreive data " ++ toString 429)) :=
  sentinel_batch_on_exhaust resp429 (fun _ => by norm_num [resp429])

theorem detailsPhase_go (env : TextEnv) (places : List PropBag)
    (a : List PropBag) (b : Nat) (c : List (Option Val × PropBag)) :
    (places.foldl
      (fun acc place =>
        let r := detailsFor env (pget place "id")
        (acc.1 ++ [r.1], acc.2.1 + r.2.1, acc.2.2 ++ r.2.2))
      (a, b, c)).1 =
      a ++ places.map (fun place => (detailsFor env (pget place "id")).1) := by
  induction places generalizing a b c with
  | nil => simp
  | cons p ps ih =>
    simp only [List.foldl_cons, List.map_cons]
    rw [ih]
    simp

/-- C9: a GET (place-details) call whose bounded retries are exhausted
resolves to the empty dict (3 attempts, no legacy fallback, no
sentinel records, no exception); the details loop of
`single_ggl_text_call` appends the loaded-or-fetched value
unconditionally, so a place whose details fetch fails contributes an
empty record to the term-set's result list. -/
theorem get_exhaust_empty_dict (resp : Nat → Nat × PropBag)
    (h : ∀ n, (resp n).1 ≠ 200) :
    (makeGetApiCall resp).2 = some [] ∧
    (makeGetApiCall resp).1.countP isAttempt = 3 ∧
    (makeGetApiCall resp).1.countP isLegacyAttempt = 0 ∧
    (∀ env : TextEnv, ∀ places : List PropBag,
       (detailsPhase env places).1 =
         places.map (fun place => (detailsFor env (pget place "id")).1)) ∧
    (∀ env : TextEnv, ∀ pid, env.loadDetails pid = none →
       env.getDetails pid = [] → (detailsFor env pid).1 = []) := by
  rw [getLoop_allFail resp h]
  refine ⟨rfl, by simp [isAttempt, List.countP_cons],
    by simp [isLegacyAttempt, List.countP_cons], ?_, ?_⟩
  · intro env places
    exact detailsPhase_go env places [] 0 []
  · intro env pid h1 h2
    simp [detailsFor, h1, h2]

/-- Witness for C9: the constant-429 GET provider yields the empty
dict, and a place whose details are neither cached nor retrievable
contributes an empty record. -/
theorem get_exhaust_empty_dict_w :
    (makeGetApiCall resp429g).2 = some [] ∧
    (detailsFor envC3 (some (.vstr "p"))).1 = [] :=
  ⟨(get_exhaust_empty_dict resp429g (fun _ => by norm_num [resp429g])).1,
   (get_exhaust_empty_dict resp429g (fun _ => by norm_num [resp429g])).2.2.2.2
     envC3 (some (.vstr "p")) rfl rfl⟩

/-! Helper lemmas about property deletion and finalisation. -/

theorem pget_pdel (bag : PropBag) (k : String) :
    pget (pdel bag k) k = none := by
  have h : (List.filter (fun p => p.1 != k) bag).find?
      (fun p => p.1 == k) = none := by
    rw [List.find?_eq_none]
    intro x hx
    have hne := (List.mem_filter.mp hx).2
    simpa using hne
  simp [pget, pdel, h]

theorem finalize_true (c : Dataset) : (finalizeCombined true c).1 = c := by
  unfold finalizeCombined
  split <;> rfl

theorem finalize_false_mem (c : Dataset) (f : Feature)
    (hf : f ∈ (finalizeCombined false c).1.features) :
    pget f.properties "id" = none := by
  unfold finalizeCombined at hf
  split at hf
  · simp only [Bool.false_eq_true, if_false, stripIds] at hf
    obtain ⟨g, _, hg⟩ := List.mem_map.mp hf
    rw [← hg]
    exact pget_pdel g.properties "id"
  · next hne =>
    rw [not_not.mp hne] at hf
    cases hf

/-- C7: with the combined fingerprint already cached, both
`fetch_text_search_ggl_maps_api` and `fetch_cat_google_maps_api`
return the stored dataset directly: the only cache lookup is the
combined one, there are zero external calls and zero stores. -/
theorem combined_cache_short_circuit (envT : TextEnv) (envC : CatEnv)
    (idsOnly : Bool) (qsT qsC : List (List String × List String))
    (dT dC : Dataset)
    (hT : envT.cache FP.combined = some dT)
    (hC : envC.cache FP.combined = some dC) :
    fetchTextSearch envT idsOnly qsT = ⟨dT, [FP.combined], 0, [], []⟩ ∧
    fetchCatSearch envC qsC = ⟨dC, [FP.combined], 0, [], []⟩ := by
  constructor
  · simp [fetchTextSearch, hT]
  · simp [fetchCatSearch, hC]

/-- Witness for C7 at environments whose combined dataset is cached. -/
theorem combined_cache_short_circuit_w :
    fetchTextSearch envHitT false [] = ⟨dsX, [FP.combined], 0, [], []⟩ ∧
    fetchCatSearch envHitC [] = ⟨dsY, [FP.combined], 0, [], []⟩ :=
  combined_cache_short_circuit envHitT envHitC false [] [] dsX dsY
    rfl rfl

/-- C2 counterexample: with `ids_and_location_only` SET, the feature of
the returned combined dataset still carries its `id` property — the
source deletes `id` only when the flag is NOT set
(`if not req.ids_and_location_only`, line 241). -/
theorem ids_only_keeps_id_cex :
    (fetchTextSearch envC2 true qsC2).output.features.map
      (fun f => pget f.properties "id") = [some (.vstr "x")] := by
  decide

/-- C2 (amended): on a combined-cache miss, the internal `id` property
is deleted from every returned feature exactly when
`ids_and_location_only` is NOT set; when the flag is set the combined
dataset is returned untouched (ids retained). -/
theorem id_strip_amended (env : TextEnv)
    (qs : List (List String × List String))
    (h : env.cache FP.combined = none) :
    (∀ f ∈ (fetchTextSearch env false qs).output.features,
       pget f.properties "id" = none) ∧
    (fetchTextSearch env true qs).output =
      (textCore env true qs).combined := by
  constructor
  · intro f hf
    simp only [fetchTextSearch, h] at hf
    exact finalize_false_mem _ f hf
  · simp only [fetchTextSearch, h]
    exact finalize_true _

/-- Witness for C2 (amended): the flag-unset run strips `id` from its
single returned feature, the flag-set run returns the combined dataset
unchanged. -/
theorem id_strip_amended_w :
    pget (Feature.mk Val.vnone []).properties "id" = none ∧
    (fetchTextSearch envC2 true qsC2).output =
      (textCore envC2 true qsC2).combined :=
  ⟨(id_strip_amended envC2 qsC2 rfl).1 ⟨.vnone, []⟩ (by decide),
   (id_strip_amended envC2 qsC2 rfl).2⟩

/-- C3 (amended): the reconstruction of a tuple's partial dataset from
include/exclude datasets: with both present, its features are exactly
the include features whose id is absent from the exclude id set; with
only include present, the include dataset unchanged; with include
absent, the empty dataset — but the partial dataset is persisted under
its own fingerprint only in the both-present branch with a non-empty
subtraction (an include-only partial is reused without a store). -/
theorem reconstruct_tuple_amended (a b : Dataset) :
    (∀ f, f ∈ entryFeatures (reconstructTuple (some a) (some b)).1 ↔
       f ∈ a.features ∧ getId f ∉ b.features.map getId) ∧
    (reconstructTuple (some a) none).1 = some a ∧
    (∀ e : Option Dataset,
       entryFeatures (reconstructTuple none e).1 = []) ∧
    (∀ sd, (reconstructTuple (some a) (some b)).2 = some sd →
       sd.features ≠ [] ∧
       (reconstructTuple (some a) (some b)).1 = some sd ∧
       sd = ⟨a.features.filter
               (fun p => decide (getId p ∉ b.features.map getId)),
             a.properties⟩) ∧
    (reconstructTuple (some a) none).2 = none ∧
    (∀ e : Option Dataset, (reconstructTuple none e).2 = none) := by
  refine ⟨?_, rfl, fun e => rfl, ?_, rfl, fun e => rfl⟩
  · intro f
    by_cases hL : (a.features.filter
        (fun p => decide (getId p ∉ b.features.map getId))) = []
    · simp only [reconstructTuple, hL, ne_eq, not_true_eq_false,
        if_false, entryFeatures]
      constructor
      · intro hf
        cases hf
      · intro ⟨hfa, hfb⟩
        have : f ∈ (a.features.filter
            (fun p => decide (getId p ∉ b.features.map getId))) :=
          List.mem_filter.mpr ⟨hfa, by simpa using hfb⟩
        rw [hL] at this
        cases this
    · simp only [reconstructTuple, hL, ne_eq, not_false_eq_true,
        if_true, entryFeatures, List.mem_filter]
      simp
  · intro sd hsd
    by_cases hL : (a.features.filter
        (fun p => decide (getId p ∉ b.features.map getId))) = []
    · simp only [reconstructTuple, hL, ne_eq, not_true_eq_false,
        if_false] at hsd
      cases hsd
    · simp only [reconstructTuple, hL, ne_eq, not_false_eq_true,
        if_true, Option.some_inj] at hsd
      refine ⟨?_, ?_, ?_⟩
      · rw [← hsd]
        exact hL
      · simp only [reconstructTuple, hL, ne_eq, not_false_eq_true,
          if_true, hsd]
      · exact hsd.symm

/-- Witness for C3 (amended) at concrete one-feature datasets with
disjoint ids. -/
theorem reconstruct_tuple_amended_w :
    (featX ∈ entryFeatures (reconstructTuple (some dsX) (some dsY)).1 ↔
       featX ∈ dsX.features ∧ getId featX ∉ dsY.features.map getId) ∧
    ((⟨[featX], ["id"]⟩ : Dataset).features ≠ [] ∧
     (reconstructTuple (some dsX) (some dsY)).1 =
       some ⟨[featX], ["id"]⟩ ∧
     (⟨[featX], ["id"]⟩ : Dataset) =
       ⟨dsX.features.filter
          (fun p => decide (getId p ∉ dsY.features.map getId)),
        dsX.properties⟩) :=
  ⟨(reconstruct_tuple_amended dsX dsY).1 featX,
   (reconstruct_tuple_amended dsX dsY).2.2.2.1 ⟨[featX], ["id"]⟩
     (by decide)⟩

/-- C3 counterexample: a run whose tuple `(["a"], ["b"])` reconstructs
a NON-empty partial dataset (the exclude-term fetch returned nothing,
so only the include dataset exists) that is never persisted under its
partial fingerprint: the only `store_data_resp` of the whole run is the
combined one. -/
theorem tuple_persist_cex :
    (textCore envC3 false qsC3).datasets =
      [(FP.part ["a"] ["b"], dsX)] ∧
    dsX.features ≠ [] ∧
    (fetchTextSearch envC3 false qsC3).stores.map (fun p => p.1) =
      [FP.combined] := by
  refine ⟨by decide, by decide, by decide⟩

/-! Helper lemmas about the post-assembly filters. -/

theorem pget_cons (q : String) (v : Val) (l : PropBag) (k : String) :
    pget ((q, v) :: l) k = if q == k then some v else pget l k := by
  cases hqk : (q == k) <;> simp [pget, List.find?, hqk]

theorem pget_filterMap_not_mem (keys : List String) (bag : PropBag)
    (k : String) (hk : k ∉ keys) :
    pget (keys.filterMap
      (fun key => (pget bag key).map (fun v => (key, v)))) k = none := by
  induction keys with
  | nil => rfl
  | cons q qs ih =>
    have hq : q ≠ k := fun e => hk (e ▸ List.mem_cons_self q qs)
    have hk2 : k ∉ qs := fun h => hk (List.mem_cons_of_mem q h)
    cases h : pget bag q with
    | none =>
      simp only [List.filterMap_cons, h, Option.map_none']
      exact ih hk2
    | some v =>
      simp only [List.filterMap_cons, h, Option.map_some']
      rw [pget_cons, if_neg (by simpa using hq)]
      exact ih hk2

theorem pget_project (keys : List String) (bag : PropBag) (k : String)
    (hk : k ∈ keys) (hnd : keys.Nodup) :
    pget (keys.filterMap
      (fun key => (pget bag key).map (fun v => (key, v)))) k =
      pget bag k := by
  induction keys with
  | nil => cases hk
  | cons q qs ih =>
    have hnd2 := List.nodup_cons.mp hnd
    by_cases hq : q = k
    · subst hq
      cases h : pget bag q with
      | none =>
        simp only [List.filterMap_cons, h, Option.map_none']
        rw [pget_filterMap_not_mem qs bag q hnd2.1]
      | some v =>
        simp only [List.filterMap_cons, h, Option.map_some']
        rw [pget_cons, if_pos (by simp)]
    · rcases List.mem_cons.mp hk with e | hk2
      · exact absurd e.symm hq
      cases h : pget bag q with
      | none =>
        simp only [List.filterMap_cons, h, Option.map_none']
        exact ih hk2 hnd2.2
      | some v =>
        simp only [List.filterMap_cons, h, Option.map_some']
        rw [pget_cons, if_neg (by simpa using hq)]
        exact ih hk2 hnd2.2

theorem projectFeature_id (g : Feature) :
    pget (projectFeature g).properties "id" = pget g.properties "id" :=
  pget_project subFields g.properties "id" (by decide) (by decide)

theorem strip_no_sentinel (d : Dataset) :
    ∀ f ∈ (stripSentinels d).features,
      pget f.properties "id" ≠ some (.vstr "n/a") := by
  intro f hf
  have h := (List.mem_filter.mp hf).2
  simpa using h

theorem filterValid_sub (b : Bool) (d : Dataset) :
    ∀ f ∈ (filterValidLocations b d).features, f ∈ d.features :=
  fun f hf => (List.mem_filter.mp hf).1

theorem filterValid_no_sentinel (b : Bool) (d : Dataset) :
    ∀ f ∈ (filterValidLocations b (stripSentinels d)).features,
      pget f.properties "id" ≠ some (.vstr "n/a") :=
  fun f hf => strip_no_sentinel d f (filterValid_sub b _ f hf)

theorem project_no_sentinel (d : Dataset)
    (hd : ∀ f ∈ d.features,
      pget f.properties "id" ≠ some (.vstr "n/a")) :
    ∀ f ∈ (selectSubProperties d).features,
      pget f.properties "id" ≠ some (.vstr "n/a") := by
  intro f hf
  obtain ⟨g, hg, hfg⟩ := List.mem_map.mp hf
  rw [← hfg, projectFeature_id]
  exact hd g hg

/-- C4 counterexample: the zero-feature check of the planning loop and
the composition persists happen on the UN-stripped dataset — on a
sentinel-only acquisition the loop evaluates `len(features) == 0` as
false although the sentinel-stripped dataset is empty, and both
`store_data_resp` events of a sentinel-producing text run persist a
dataset whose single feature carries id `"n/a"`. -/
theorem sentinel_order_cex :
    (fetchGglNearby envC4 true).checks = [false] ∧
    (stripSentinels (envC4.queryResult 0)).features = [] ∧
    (fetchTextSearch envC4p false qsC4).stores.map
      (fun p => p.2.features.map getId) =
      [[some (.vstr "n/a")], [some (.vstr "n/a")]] := by
  refine ⟨by decide, by decide, by decide⟩

/-- C4 (amended): sentinel records are stripped only after the
planning loop's zero-feature checks and after the composition step's
persists, but before the plan marking and before returning: no feature
whose properties carry id `"n/a"` appears in the collection
`fetch_ggl_nearby` returns, and the has-features marking is computed on
the sentinel-stripped dataset. -/
theorem sentinel_strip_amended (env : NearbyEnv) (fullData : Bool) :
    (∀ f ∈ (fetchGglNearby env fullData).output.features,
       pget f.properties "id" ≠ some (.vstr "n/a")) ∧
    (fullData = true →
       (fetchGglNearby env fullData).marked =
         some ((fetchGglNearby env fullData).currentIdx,
           decide (0 < (stripSentinels
             (fetchGglNearby env fullData).loopDataset).features.length))) := by
  cases fullData with
  | true =>
    refine ⟨?_, fun _ => rfl⟩
    intro f hf
    simp only [fetchGglNearby, if_true] at hf
    by_cases hsub : env.subPropsOnly
    · rw [if_pos hsub] at hf
      exact project_no_sentinel _ (filterValid_no_sentinel _ _) f hf
    · rw [if_neg hsub] at hf
      exact filterValid_no_sentinel _ _ f hf
  | false =>
    refine ⟨?_, fun h => by cases h⟩
    intro f hf
    simp only [fetchGglNearby, Bool.false_eq_true, if_false] at hf
    by_cases hsub : env.subPropsOnly
    · rw [if_pos hsub] at hf
      exact project_no_sentinel _ (strip_no_sentinel _) f hf
    · rw [if_neg hsub] at hf
      exact strip_no_sentinel _ f hf

/-- Witness for C4 (amended) at an environment that returns one valid
feature. -/
theorem sentinel_strip_amended_w :
    pget featPhoto.properties "id" ≠ some (.vstr "n/a") ∧
    (fetchGglNearby envC4w true).marked =
      some ((fetchGglNearby envC4w true).currentIdx,
        decide (0 < (stripSentinels
          (fetchGglNearby envC4w true).loopDataset).features.length)) :=
  ⟨(sentinel_strip_amended envC4w true).1 featPhoto (by decide),
   (sentinel_strip_amended envC4w true).2 rfl⟩

theorem if_gt_eq_max (c n : Int) : (if c > n then c else n) = max n c := by
  rcases le_or_lt c n with h | h
  · rw [if_neg (not_lt.mpr h), max_eq_left h]
  · rw [if_pos h, max_eq_right h.le]

/-- C8: every "full data" invocation of `fetch_ggl_nearby` returns a
next plan-step index equal to the maximum of the rectified next index
(the value of `next_plan_index` just before the final step) and the
current step index plus one, and marks the step actually used with the
has-features boolean of the sentinel-filtered dataset. -/
theorem next_index_max_and_mark (env : NearbyEnv) :
    (fetchGglNearby env true).nextIdx =
      max (fetchGglNearby env true).preMaxNext
        (((fetchGglNearby env true).currentIdx : Int) + 1) ∧
    (fetchGglNearby env true).marked =
      some ((fetchGglNearby env true).currentIdx,
        decide (0 < (stripSentinels
          (fetchGglNearby env true).loopDataset).features.length)) := by
  constructor
  · simp only [fetchGglNearby, if_true]
    exact if_gt_eq_max _ _
  · rfl

end Ggl
